import Mathlib

/-!
Shallow embedding of the command-execution core of the kontent-data-ops
custom app: the server-side option sanitizer and command validator
(`validation.ts`), the argument builder (`commands.ts`), the executor
(`executor.ts`), the execute route and its stream relay (`routes.ts`),
the in-memory rate limiter (`rateLimit.ts`), and the frontend progress
classifier (`parseProgressFromOutput` in `app-frontend.js`).

JavaScript strings are modelled as Lean `String`/`List Char`; JS numbers
as `Int`/`Nat` (float rounding is immaterial to the claims checked here,
so exact rational arithmetic stands in for float division); dynamically
typed option values as the closed union `OptValue`; thrown exceptions as
`Except String`.
-/

namespace DataOps

/-! ## String utilities mirroring the JavaScript primitives used -/

/-- Character class of the JavaScript regex escape `\s` (ASCII part plus
NBSP; the rarer Unicode space code points do not occur in any input the
claims mention). -/
def jsSpace (c : Char) : Bool :=
  c = ' ' || c = '\t' || c = '\n' || c = '\r' || c.toNat = 11 || c.toNat = 12 || c.toNat = 160

/-- JavaScript `String.prototype.split` with a single-character
separator: `"a\nb".split("\n") = ["a","b"]`, `"a\n".split("\n") = ["a",""]`. -/
def splitOnChar (sep : Char) : List Char → List (List Char)
  | [] => [[]]
  | c :: cs =>
    let r := splitOnChar sep cs
    if c = sep then [] :: r
    else
      match r with
      | [] => [[c]]
      | h :: t => (c :: h) :: t

/-- JavaScript `String.prototype.trim` (whitespace from both ends). -/
def trimChars (cs : List Char) : List Char :=
  ((cs.dropWhile jsSpace).reverse.dropWhile jsSpace).reverse

/-- JavaScript `String.prototype.includes`: substring containment. -/
def containsSub (hay needle : List Char) : Bool :=
  if needle.isPrefixOf hay then true
  else
    match hay with
    | [] => false
    | _ :: t => containsSub t needle

/-- Lowercased copy, for the case-insensitive `i` regex flag and
`String.prototype.toLowerCase` (the repository only lowercases ASCII). -/
def lowerList (cs : List Char) : List Char :=
  cs.map Char.toLower

/-- Case-insensitive substring test (a JS regex of a literal word with
the `i` flag). -/
def ciContains (hay needle : List Char) : Bool :=
  containsSub (lowerList hay) (lowerList needle)

/-- Suffix of the haystack after the first occurrence of the needle. -/
def dropThroughSub (hay needle : List Char) : Option (List Char) :=
  if needle.isPrefixOf hay then some (hay.drop needle.length)
  else
    match hay with
    | [] => none
    | _ :: t => dropThroughSub t needle

/-- Case-insensitive test for a JS regex of the form `a.*b` with the `i`
flag: some occurrence of `a` is followed, anywhere later, by `b`. -/
def ciSeqContains (hay a b : List Char) : Bool :=
  match dropThroughSub (lowerList hay) (lowerList a) with
  | some rest => containsSub rest (lowerList b)
  | none => false

/-- Value of a nonempty run of decimal digits (`parseInt(m, 10)` on a
`\d+` capture). -/
def natOfDigits (ds : List Char) : Nat :=
  ds.foldl (fun a c => 10 * a + (c.toNat - 48)) 0

/-- Test for a leading character (JS `key.startsWith(c)`). -/
def startsWithChar (c : Char) (s : String) : Bool :=
  match s.data with
  | [] => false
  | h :: _ => h = c

/-! ## Option values

`CommandOptions` is a JS object; its values here form a closed union.
Iteration order of `Object.entries` is the insertion order, modelled by
an association list. -/

/-- Runtime value of one command option. -/
inductive OptValue where
  | vnull
  | vundefined
  | vstr (s : String)
  | vnum (n : Int)
  | vbool (b : Bool)
  | varr (elems : List String)
  | vobj
deriving DecidableEq

/-- JavaScript truthiness of an option value (`!x` negated). Arrays and
objects are always truthy. -/
def truthy : OptValue → Bool
  | .vnull => false
  | .vundefined => false
  | .vstr s => !(s = "")
  | .vnum n => !(n = 0)
  | .vbool b => b
  | .varr _ => true
  | .vobj => true

/-- Property read `options.key`; a missing key reads as `undefined`. -/
def getOpt (options : List (String × OptValue)) (key : String) : OptValue :=
  match options.find? (fun kv => kv.1 = key) with
  | some kv => kv.2
  | none => .vundefined

/-- Array test (`Array.isArray`). -/
def isArrayV : OptValue → Bool
  | .varr _ => true
  | _ => false

/-- Array length (`x.length`, only read after an `Array.isArray` guard). -/
def arrayLenV : OptValue → Nat
  | .varr xs => xs.length
  | _ => 0

/-! ## `validation.ts` — option sanitizer and command validator -/

/-- Source `sanitizeInput`: trims strings, passes every other value
through unchanged. -/
def sanitizeInput : OptValue → OptValue
  | .vstr s => .vstr (String.mk (trimChars s.data))
  | v => v

/-- Hex digit of the UUID regex character class `[0-9a-f]` with the `i`
flag. -/
def isHexDigit (c : Char) : Bool :=
  c.isDigit || ('a' ≤ c && c ≤ 'f') || ('A' ≤ c && c ≤ 'F')

/-- Consume exactly `n` hex digits. -/
def hexChunk : Nat → List Char → Option (List Char)
  | 0, cs => some cs
  | _ + 1, [] => none
  | n + 1, c :: cs => if isHexDigit c then hexChunk n cs else none

/-- Consume one mandatory dash. -/
def expectDash : List Char → Option (List Char)
  | '-' :: cs => some cs
  | _ => none

/-- Anchored test of the UUID regex
`^[0-9a-f]{8}-[0-9a-f]{4}-[0-9a-f]{4}-[0-9a-f]{4}-[0-9a-f]{12}$/i`. -/
def uuidTest (cs : List Char) : Bool :=
  (do
    let r ← hexChunk 8 cs
    let r ← expectDash r
    let r ← hexChunk 4 r
    let r ← expectDash r
    let r ← hexChunk 4 r
    let r ← expectDash r
    let r ← hexChunk 4 r
    let r ← expectDash r
    let r ← hexChunk 12 r
    if r = [] then some () else none).isSome

/-- Source `validateEnvironmentId`: falsy or non-string values fail, a
string passes when its trimmed form matches the UUID regex. -/
def validateEnvironmentId : OptValue → Bool
  | .vstr s => !(s = "") && uuidTest (trimChars s.data)
  | _ => false

/-- Source `validateApiKey`: falsy or non-string values fail, a string
passes when its trimmed length reaches the minimum (call sites use the
default 10). -/
def validateApiKey (v : OptValue) (minLength : Nat) : Bool :=
  match v with
  | .vstr s => !(s = "") && minLength ≤ (trimChars s.data).length
  | _ => false

/-- One step of Node `path.normalize` (POSIX) segment resolution:
`''` and `'.'` segments vanish, `'..'` pops a poppable stack top, stays
when the path is relative and nothing can pop, and disappears above the
root of an absolute path. -/
def normStep (isAbs : Bool) (st : List (List Char)) (seg : List Char) : List (List Char) :=
  if seg = [] || seg = ['.'] then st
  else if seg = ['.', '.'] then
    if st ≠ [] ∧ st.getLast? ≠ some ['.', '.'] then st.dropLast
    else if isAbs then st
    else st ++ [seg]
  else st ++ [seg]

/-- Join path segments with slashes. -/
def joinSlash : List (List Char) → List Char
  | [] => []
  | [x] => x
  | x :: xs => x ++ '/' :: joinSlash xs

/-- Node `path.normalize` for POSIX paths (the server runs on a POSIX
host): resolves `.` and `..` segments, collapses repeated separators,
keeps a trailing separator, maps the empty path to `.`. -/
def posixNormalize (cs : List Char) : List Char :=
  if h : cs = [] then ['.']
  else
    let isAbs := cs.head (by simpa using h) = '/'
    let trailing := cs.getLast? = some '/'
    let core := joinSlash ((splitOnChar '/' cs).foldl (normStep isAbs) [])
    if core = [] then
      if isAbs then ['/'] else if trailing then ['.', '/'] else ['.']
    else
      (if isAbs then ['/'] else []) ++ core ++ (if trailing then ['/'] else [])

/-- Source `validateFilePath`: falsy or non-string values fail; a string
is normalized with `path.normalize` and passes when the normalized form
has no `..` substring, is nonempty, and is shorter than `maxLength`
(call sites use the default 500). -/
def validateFilePath (v : OptValue) (maxLength : Nat) : Bool :=
  match v with
  | .vstr s =>
    if s = "" then false
    else
      let normalized := posixNormalize s.data
      !(containsSub normalized ['.', '.']) && 0 < normalized.length && normalized.length < maxLength
  | _ => false

/-- Result record of `validateCommandOptions` (`{valid, message?}`). -/
structure ValidationResult where
  valid : Bool
  message : Option String
deriving DecidableEq

/-- Source `validateCommandOptions`: per-command required/conditional
option rules, keyed on the space-split command tokens. Note that an
unrecognized action below a recognized domain falls through every inner
branch to the final `return valid`. -/
def validateCommandOptions (command : String) (options : List (String × OptValue)) : ValidationResult :=
  let commandParts := (splitOnChar ' ' command.data).map String.mk
  let mainCommand := commandParts.headD ""
  let subCommand := (commandParts.drop 1).head?
  if mainCommand = "environment" then
    if subCommand = some "backup" then
      if !truthy (getOpt options "environmentId") || !truthy (getOpt options "apiKey") then
        ⟨false, some "environmentId and apiKey are required for environment backup"⟩
      else ⟨true, none⟩
    else if subCommand = some "restore" then
      if !truthy (getOpt options "environmentId") || !truthy (getOpt options "apiKey")
          || !truthy (getOpt options "fileName") then
        ⟨false, some "environmentId, apiKey, and fileName are required for environment restore"⟩
      else ⟨true, none⟩
    else if subCommand = some "clean" then
      if !truthy (getOpt options "environmentId") || !truthy (getOpt options "apiKey") then
        ⟨false, some "environmentId and apiKey are required for environment clean"⟩
      else ⟨true, none⟩
    else ⟨true, none⟩
  else if mainCommand = "sync" then
    if subCommand = some "run" then
      if !truthy (getOpt options "targetEnvironmentId") || !truthy (getOpt options "targetApiKey")
          || !truthy (getOpt options "entities") || !isArrayV (getOpt options "entities")
          || arrayLenV (getOpt options "entities") = 0 then
        ⟨false, some "targetEnvironmentId, targetApiKey, and entities are required for sync run"⟩
      else if !truthy (getOpt options "sourceEnvironmentId") && !truthy (getOpt options "folderName") then
        ⟨false, some "Either sourceEnvironmentId+sourceApiKey or folderName is required for sync run"⟩
      else if truthy (getOpt options "sourceEnvironmentId") && !truthy (getOpt options "sourceApiKey") then
        ⟨false, some "sourceApiKey is required when using sourceEnvironmentId"⟩
      else ⟨true, none⟩
    else if subCommand = some "snapshot" then
      if !truthy (getOpt options "environmentId") || !truthy (getOpt options "apiKey")
          || !truthy (getOpt options "entities") || !isArrayV (getOpt options "entities")
          || arrayLenV (getOpt options "entities") = 0 then
        ⟨false, some "environmentId, apiKey, and entities are required for sync snapshot"⟩
      else ⟨true, none⟩
    else if subCommand = some "diff" then
      if !truthy (getOpt options "targetEnvironmentId") || !truthy (getOpt options "targetApiKey") then
        ⟨false, some "targetEnvironmentId and targetApiKey are required for sync diff"⟩
      else if !truthy (getOpt options "sourceEnvironmentId") && !truthy (getOpt options "folderName") then
        ⟨false, some "Either sourceEnvironmentId+sourceApiKey or folderName is required for sync diff"⟩
      else if truthy (getOpt options "sourceEnvironmentId") && !truthy (getOpt options "sourceApiKey") then
        ⟨false, some "sourceApiKey is required when using sourceEnvironmentId"⟩
      else if truthy (getOpt options "advanced")
          && (!truthy (getOpt options "outPath")
              || (match getOpt options "outPath" with
                  | .vstr s => trimChars s.data = []
                  | _ => false)) then
        ⟨false, some "outPath is required when advanced option is enabled"⟩
      else ⟨true, none⟩
    else ⟨true, none⟩
  else if mainCommand = "migrate-content" || mainCommand = "migrations" then
    ⟨true, none⟩
  else
    ⟨false, some ("Unknown command: " ++ command)⟩

/-- Key test for identifier-like fields in `validateAndSanitizeOptions`. -/
def isEnvIdKey (key : String) : Bool :=
  containsSub (lowerList key.data) "environmentid".data
    || containsSub (lowerList key.data) "environment_id".data

/-- Key test for API-key fields in `validateAndSanitizeOptions`. -/
def isApiKeyKey (key : String) : Bool :=
  containsSub (lowerList key.data) "apikey".data
    || containsSub (lowerList key.data) "api_key".data

/-- Key test for file/path fields in `validateAndSanitizeOptions`. -/
def isFileKey (key : String) : Bool :=
  containsSub (lowerList key.data) "filename".data
    || containsSub (lowerList key.data) "file_name".data
    || containsSub (lowerList key.data) "outpath".data
    || containsSub (lowerList key.data) "folder".data

/-- Violations the `validateAndSanitizeOptions` loop body records for one
non-internal key (each guard fires only on a truthy value). -/
def keyErrors (key : String) (value : OptValue) : List String :=
  (if isEnvIdKey key && truthy value && !validateEnvironmentId value
   then [key ++ " must be a valid UUID format"] else [])
  ++ (if isApiKeyKey key && truthy value && !validateApiKey value 10
      then [key ++ " appears to be invalid"] else [])
  ++ (if isFileKey key && truthy value && !validateFilePath value 500
      then [key ++ " contains invalid characters or path traversal attempt"] else [])

/-- Source `validateAndSanitizeOptions`: keys with the internal `_`
marker pass through verbatim and unchecked; other string values are
trimmed; identifier, API-key and file-path shaped keys are checked; all
accumulated violations are thrown as one `Validation errors: ...`
exception, otherwise the sanitized mapping is returned. -/
def validateAndSanitizeOptions (_command : String) (options : List (String × OptValue)) :
    Except String (List (String × OptValue)) :=
  let sanitized := options.map (fun kv =>
    if startsWithChar '_' kv.1 then kv else (kv.1, sanitizeInput kv.2))
  let errors := options.flatMap (fun kv =>
    if startsWithChar '_' kv.1 then [] else keyErrors kv.1 kv.2)
  if errors = [] then .ok sanitized
  else .error ("Validation errors: " ++ String.intercalate ", " errors)

/-! ## `commands.ts` — argument builder -/

/-- The camelCase-to-kebab-case conversion
`key.replace(/([A-Z])/g, '-$1').toLowerCase()`: every uppercase ASCII
letter is replaced by a dash plus itself, then the whole key is
lowercased. -/
def kebabCase (key : String) : String :=
  String.mk (key.data.flatMap (fun c =>
    if c.isUpper then ['-', c.toLower] else [c.toLower]))

/-- JavaScript `String(value)` for the scalar values the builder can
reach (the object and null cases are filtered out before conversion). -/
def jsString : OptValue → String
  | .vstr s => s
  | .vnum n => toString n
  | .vbool b => if b then "true" else "false"
  | .vnull => "null"
  | .vundefined => "undefined"
  | .varr _ => ""
  | .vobj => ""

/-- Body of the `Object.entries(options).forEach` loop in
`buildDataOpsArgs`: pushes nothing for null/undefined/empty-string
values and for internal `_`-keys, a bare flag for `true`, nothing for
`false`, a repeated flag/value pair per array element, nothing for bare
objects, and a flag/value pair for any other scalar. -/
def buildStep (args : List String) (kv : String × OptValue) : List String :=
  if kv.2 ≠ .vnull ∧ kv.2 ≠ .vundefined ∧ kv.2 ≠ .vstr "" then
    if startsWithChar '_' kv.1 then args
    else
      let kebabKey := kebabCase kv.1
      match kv.2 with
      | .vbool b => if b then args ++ ["--" ++ kebabKey] else args
      | .varr xs => args ++ xs.flatMap (fun v => ["--" ++ kebabKey, v])
      | .vobj => args
      | v => args ++ ["--" ++ kebabKey, jsString v]
  else args

/-- Argv assembly of `buildDataOpsArgs`: seed with the split command,
then fold the `Object.entries(options).forEach` body. -/
def buildDataOpsArgs (command : String) (options : List (String × OptValue)) : List String :=
  let commandParts := (splitOnChar ' ' command.data).map String.mk
  options.foldl buildStep commandParts

/-- Tokens one option contributes to argv, as the specification words
them (used to state the refinement claim about `buildDataOpsArgs`). -/
def tokensForOption (kv : String × OptValue) : List String :=
  if startsWithChar '_' kv.1 then []
  else
    match kv.2 with
    | .vnull => []
    | .vundefined => []
    | .vobj => []
    | .vbool b => if b then ["--" ++ kebabCase kv.1] else []
    | .varr xs => xs.flatMap (fun v => ["--" ++ kebabCase kv.1, v])
    | .vstr s => if s = "" then [] else ["--" ++ kebabCase kv.1, s]
    | .vnum n => ["--" ++ kebabCase kv.1, toString n]

/-! ## `executor.ts` — `executeDataOpsCommand` -/

/-- Resolved path of the wrapped CLI (`DATA_OPS_CLI`); the concrete value
is environment configuration and does not matter to any claim. -/
def dataOpsCliPath : String := "data-ops/build/src/index.js"

/-- Remediation message thrown when the CLI executable is missing. -/
def cliNotFoundMessage : String :=
  "Data-ops CLI not found at " ++ dataOpsCliPath ++
    ". Please ensure the data-ops repository is built. Run: cd data-ops && npm run build"

/-- Source `executeDataOpsCommand` up to the `execa` call: sanitizes,
validates, verifies the CLI exists (`cliExists` stands for the
`fs.access` probe), then spawns. A successful result carries the argv
the child was spawned with; an error is the thrown message after the
catch-block rewrite of `not found` errors. -/
def executeDataOpsCommand (cliExists : Bool) (command : String)
    (options : List (String × OptValue)) : Except String (List String) :=
  let run : Except String (List String) :=
    match validateAndSanitizeOptions command options with
    | .error e => .error e
    | .ok sanitizedOptions =>
      let validation := validateCommandOptions command sanitizedOptions
      if validation.valid = false then
        .error (validation.message.getD "Invalid command options")
      else if !cliExists then
        .error cliNotFoundMessage
      else
        .ok (buildDataOpsArgs command sanitizedOptions)
  match run with
  | .ok args => .ok args
  | .error e =>
    if containsSub e.data "not found".data then .error cliNotFoundMessage
    else .error e

/-- Number of child processes spawned by one `executeDataOpsCommand`
call: the `execa` call is reached exactly on the success path. -/
def spawnCount : Except String (List String) → Nat
  | .ok _ => 1
  | .error _ => 0

/-! ## `app-frontend.js` — `parseProgressFromOutput` -/

/-- Match attempt of `/(\d+)%\s*[\/\\]\s*(\d+)/` at one position. The
adjacent character classes are pairwise disjoint, so the greedy
quantifiers never need backtracking. -/
def p1At (cs : List Char) : Option (Nat × Nat) :=
  let ds := cs.takeWhile Char.isDigit
  if ds = [] then none
  else
    match cs.dropWhile Char.isDigit with
    | '%' :: r2 =>
      match r2.dropWhile jsSpace with
      | c :: r4 =>
        if c = '/' || c = '\\' then
          let ds2 := (r4.dropWhile jsSpace).takeWhile Char.isDigit
          if ds2 = [] then none else some (natOfDigits ds, natOfDigits ds2)
        else none
      | [] => none
    | _ => none

/-- Match attempt of `/(\d+)\s*of\s*(\d+)/i` at one position. -/
def p2At (cs : List Char) : Option (Nat × Nat) :=
  let ds := cs.takeWhile Char.isDigit
  if ds = [] then none
  else
    match (cs.dropWhile Char.isDigit).dropWhile jsSpace with
    | o :: f :: r3 =>
      if o.toLower = 'o' && f.toLower = 'f' then
        let ds2 := (r3.dropWhile jsSpace).takeWhile Char.isDigit
        if ds2 = [] then none else some (natOfDigits ds, natOfDigits ds2)
      else none
    | _ => none

/-- Character class `[:\s]`. -/
def colonOrSpace (c : Char) : Bool :=
  c = ':' || jsSpace c

/-- Match attempt of `/progress[:\s]+(\d+)%/i` at one position. -/
def p3At (cs : List Char) : Option Nat :=
  if ("progress".data).isPrefixOf (lowerList cs) then
    let r := cs.drop 8
    if r.takeWhile colonOrSpace = [] then none
    else
      let r2 := r.dropWhile colonOrSpace
      let ds := r2.takeWhile Char.isDigit
      if ds = [] then none
      else
        match r2.dropWhile Char.isDigit with
        | '%' :: _ => some (natOfDigits ds)
        | _ => none
  else none

/-- Match attempt of `/(\d+)\/(\d+)/` at one position. -/
def p4At (cs : List Char) : Option (Nat × Nat) :=
  let ds := cs.takeWhile Char.isDigit
  if ds = [] then none
  else
    match cs.dropWhile Char.isDigit with
    | '/' :: r2 =>
      let ds2 := r2.takeWhile Char.isDigit
      if ds2 = [] then none else some (natOfDigits ds, natOfDigits ds2)
    | _ => none

/-- Match attempt of `/\[(\d+)%\]/` at one position. -/
def p5At (cs : List Char) : Option Nat :=
  match cs with
  | '[' :: r =>
    let ds := r.takeWhile Char.isDigit
    if ds = [] then none
    else
      match r.dropWhile Char.isDigit with
      | '%' :: ']' :: _ => some (natOfDigits ds)
      | _ => none
  | _ => none

/-- Unanchored JS regex search: try every start position left to right
and return the first (leftmost) match. -/
def scanFor {α : Type} (f : List Char → Option α) : List Char → Option α
  | [] => f []
  | c :: cs =>
    match f (c :: cs) with
    | some r => some r
    | none => scanFor f cs

/-- The sixth entry of `progressPatterns`,
`/backing up|restoring|syncing|processing/i`; it has no capture group,
so a match of it never returns from the numeric loop. -/
def stageIndicatorTest (s : String) : Bool :=
  ciContains s.data "backing up".data || ciContains s.data "restoring".data
    || ciContains s.data "syncing".data || ciContains s.data "processing".data

/-- Capture array of one `message.match(pattern)` call: the values of
`match[1]` and `match[2]` when the pattern matches. -/
def Capture := Option Nat × Option Nat

/-- First entry of `progressPatterns` as a whole-string matcher
returning its capture array. -/
def pat1 : String → Option Capture :=
  fun s => (scanFor p1At s.data).map (fun nm => (some nm.1, some nm.2))

/-- Second entry of `progressPatterns`. -/
def pat2 : String → Option Capture :=
  fun s => (scanFor p2At s.data).map (fun nm => (some nm.1, some nm.2))

/-- Third entry of `progressPatterns` (one capture group). -/
def pat3 : String → Option Capture :=
  fun s => (scanFor p3At s.data).map (fun n => (some n, none))

/-- Fourth entry of `progressPatterns`. -/
def pat4 : String → Option Capture :=
  fun s => (scanFor p4At s.data).map (fun nm => (some nm.1, some nm.2))

/-- Fifth entry of `progressPatterns` (one capture group). -/
def pat5 : String → Option Capture :=
  fun s => (scanFor p5At s.data).map (fun n => (some n, none))

/-- Sixth entry of `progressPatterns` (no capture groups). -/
def pat6 : String → Option Capture :=
  fun s => if stageIndicatorTest s then some (none, none) else none

/-- The `progressPatterns` array, in source order. -/
def progressPatterns : List (String → Option Capture) :=
  [pat1, pat2, pat3, pat4, pat5, pat6]

/-- Normalized progress signal `{percent, message, stage}` returned by
the classifier (`percent: null` becomes `none`). -/
structure ProgressSignal where
  percent : Option ℚ
  message : String
  stage : String
deriving DecidableEq

/-- The first `for` loop of `parseProgressFromOutput`: on a match with
two captures and a positive total, return the ratio percent; on a match
whose `match[2]` is undefined, return `match[1]` as a direct percent;
otherwise fall through to the next pattern. -/
def numericLoop (s : String) : List (String → Option Capture) → Option ProgressSignal
  | [] => none
  | p :: ps =>
    match p s with
    | none => numericLoop s ps
    | some (some cur, some tot) =>
      if 0 < tot then some ⟨some (((cur : ℚ) / tot) * 100), s, ""⟩ else numericLoop s ps
    | some (some cur, none) => some ⟨some ((cur : ℚ)), s, ""⟩
    | some (none, _) => numericLoop s ps

/-- The `stagePatterns` table: keyword regex (a ci literal) and its fixed
stage label. -/
def stagePatterns : List (String × String) :=
  [ ("backing up", "Backing up data..."),
    ("restoring", "Restoring data..."),
    ("syncing", "Synchronizing..."),
    ("processing", "Processing..."),
    ("validating", "Validating..."),
    ("fetching", "Fetching data..."),
    ("uploading", "Uploading..."),
    ("downloading", "Downloading...") ]

/-- The second `for` loop of `parseProgressFromOutput`: first matching
stage keyword wins, with no percent. -/
def stageLoop (s : String) : List (String × String) → Option ProgressSignal
  | [] => none
  | kw :: ps =>
    if ciContains s.data kw.1.data then some ⟨none, s, kw.2⟩ else stageLoop s ps

/-- Source `parseProgressFromOutput`: numeric extraction first, then
stage keywords, else no signal. -/
def parseProgressFromOutput (s : String) : Option ProgressSignal :=
  match numericLoop s progressPatterns with
  | some r => some r
  | none => stageLoop s stagePatterns

/-- Percent of one two-capture pattern attempt, as the specification
words it: a match `(N, M)` with `M > 0` yields `100 * N / M`, a match
with `M = 0` is skipped (the next pattern is tried). -/
def ratioOrSkip (r : Option (Nat × Nat)) : Option ℚ :=
  match r with
  | some nm => if 0 < nm.2 then some (100 * (nm.1 : ℚ) / nm.2) else none
  | none => none

/-- Fifth and last step of the numeric cascade as the specification
words it: a `[N%]` match yields `N` directly. -/
def specNum5 (s : String) : Option ℚ :=
  (scanFor p5At s.data).map (fun n => ((n : ℚ)))

/-- Fourth step of the cascade: an `N/M` ratio with `M > 0` yields
`100 * N / M`, otherwise the fifth pattern is tried. -/
def specNum4 (s : String) : Option ℚ :=
  match ratioOrSkip (scanFor p4At s.data) with
  | some q => some q
  | none => specNum5 s

/-- Third step of the cascade: a `Progress: N%` match yields `N`
directly, otherwise the fourth pattern is tried. -/
def specNum3 (s : String) : Option ℚ :=
  match (scanFor p3At s.data).map (fun n => ((n : ℚ))) with
  | some q => some q
  | none => specNum4 s

/-- Second step of the cascade: an `N of M` ratio with `M > 0` yields
`100 * N / M`, otherwise the third pattern is tried. -/
def specNum2 (s : String) : Option ℚ :=
  match ratioOrSkip (scanFor p2At s.data) with
  | some q => some q
  | none => specNum3 s

/-- Numeric extraction as the specification words it: try the five
numeric patterns in order; the first ratio match with a positive total
yields `100 * N / M`, a single-capture match yields the captured integer
directly; later patterns are not tried after a success. -/
def classifySpecNumeric (s : String) : Option ℚ :=
  match ratioOrSkip (scanFor p1At s.data) with
  | some q => some q
  | none => specNum2 s

/-- The whole classifier as the specification words it: numeric result
if any, else the fixed label of the first matching stage keyword with no
percent, else nothing. -/
def classifySpec (s : String) : Option ProgressSignal :=
  match classifySpecNumeric s with
  | some q => some ⟨some q, s, ""⟩
  | none =>
    match stagePatterns.find? (fun kw => ciContains s.data kw.1.data) with
    | some kw => some ⟨none, s, kw.2⟩
    | none => none

/-! ## `routes.ts` — the `/api/execute` stream relay -/

/-- Output level of a relayed output line. -/
inductive OutputLevel where
  | info
  | error
deriving DecidableEq

/-- Wire events of the server-sent-event stream (`StreamMessage`). -/
inductive StreamMessage where
  | connected (message : String)
  | output (level : OutputLevel) (message : String)
  | progress (percent : ℚ) (message : String) (stage : String)
  | complete (success : Bool) (message : String)
  | error (message : String)
deriving DecidableEq

/-- One row of the `progressStages` table: a line pattern, a fixed
percent, and a stage label. -/
structure StageEntry where
  test : String → Bool
  percent : ℚ
  stage : String

/-- The `progressStages['environment backup']` rows. -/
def backupStages : List StageEntry :=
  [ ⟨fun l => ciContains l.data "backing up".data || ciContains l.data "starting backup".data,
      10, "Starting backup..."⟩,
    ⟨fun l => ciSeqContains l.data "fetching".data "content".data
        || ciContains l.data "retrieving".data,
      30, "Fetching content..."⟩,
    ⟨fun l => ciSeqContains l.data "processing".data "assets".data
        || ciSeqContains l.data "downloading".data "assets".data,
      50, "Processing assets..."⟩,
    ⟨fun l => ciSeqContains l.data "creating".data "zip".data
        || ciContains l.data "compressing".data,
      80, "Creating backup file..."⟩,
    ⟨fun l => ciSeqContains l.data "backup".data "complete".data
        || ciContains l.data "finished".data,
      100, "Backup complete!"⟩ ]

/-- The `progressStages['environment restore']` rows. -/
def restoreStages : List StageEntry :=
  [ ⟨fun l => ciContains l.data "restoring".data || ciContains l.data "starting restore".data,
      10, "Starting restore..."⟩,
    ⟨fun l => ciContains l.data "extracting".data || ciContains l.data "unzipping".data,
      20, "Extracting backup..."⟩,
    ⟨fun l => ciContains l.data "uploading".data || ciContains l.data "importing".data,
      50, "Importing data..."⟩,
    ⟨fun l => ciSeqContains l.data "restore".data "complete".data
        || ciContains l.data "finished".data,
      100, "Restore complete!"⟩ ]

/-- The `progressStages['sync run']` rows. -/
def syncStages : List StageEntry :=
  [ ⟨fun l => ciContains l.data "syncing".data || ciContains l.data "starting sync".data,
      10, "Starting sync..."⟩,
    ⟨fun l => ciContains l.data "comparing".data || ciContains l.data "analyzing".data,
      30, "Comparing environments..."⟩,
    ⟨fun l => ciSeqContains l.data "applying".data "changes".data
        || ciContains l.data "updating".data,
      60, "Applying changes..."⟩,
    ⟨fun l => ciSeqContains l.data "sync".data "complete".data
        || ciContains l.data "finished".data,
      100, "Sync complete!"⟩ ]

/-- `progressStages[command] || []`. -/
def progressStagesFor (command : String) : List StageEntry :=
  if command = "environment backup" then backupStages
  else if command = "environment restore" then restoreStages
  else if command = "sync run" then syncStages
  else []

/-- Raw child-process stream activity driving the relay: one stdout or
stderr `data` chunk. A stdout chunk carries the `Date.now()` clock value
its handler observes (the handler reads the clock while processing). -/
inductive ProcEvent where
  | stdoutChunk (now : Int) (data : String)
  | stderrChunk (data : String)

/-- `output.split('\n').filter(line => line.trim())`: nonempty-after-trim
lines of one chunk, kept untrimmed. -/
def nonEmptyLines (data : String) : List String :=
  ((splitOnChar '\n' data.data).filter (fun l => trimChars l ≠ [])).map String.mk

/-- Handler body for one stdout line: the first stage row whose pattern
matches while at least 500 ms passed since the last progress emission
yields a progress event (and resets the clock), and the line is always
also emitted as an info-level output event. -/
def lineEvents (stages : List StageEntry) (now lastProgressUpdate : Int) (line : String) :
    List StreamMessage × Int :=
  match stages.find? (fun st => st.test line && decide (500 < now - lastProgressUpdate)) with
  | some st => ([.progress st.percent line st.stage, .output .info line], now)
  | none => ([.output .info line], lastProgressUpdate)

/-- Fold of `lineEvents` over the lines of one stdout chunk, threading
the `lastProgressUpdate` clock. -/
def linesEvents (stages : List StageEntry) (now : Int) :
    List String → Int → List StreamMessage × Int
  | [], last => ([], last)
  | line :: rest, last =>
    let es := lineEvents stages now last line
    let more := linesEvents stages now rest es.2
    (es.1 ++ more.1, more.2)

/-- Handler for one stderr chunk: every nonempty line becomes an
error-level output event. -/
def stderrEvents (data : String) : List StreamMessage :=
  (nonEmptyLines data).map (fun line => .output .error line)

/-- Events the stream handlers write for the whole chunk sequence,
threading `lastProgressUpdate` (initially 0). -/
def processEvents (stages : List StageEntry) :
    List ProcEvent → Int → List StreamMessage × Int
  | [], last => ([], last)
  | .stdoutChunk now data :: rest, last =>
    let es := linesEvents stages now (nonEmptyLines data) last
    let more := processEvents stages rest es.2
    (es.1 ++ more.1, more.2)
  | .stderrChunk data :: rest, last =>
    let more := processEvents stages rest last
    (stderrEvents data ++ more.1, more.2)

/-- The `close` handler of lines 382-399: exit code 0 becomes
`Complete{success:true}`, any other exit code becomes
`Complete{success:false}` with the code in the message. -/
def closeEvent (code : Int) : StreamMessage :=
  if code = 0 then .complete true "Command completed successfully"
  else .complete false ("Command exited with code " ++ toString code)

/-- Full wire-event sequence of one streamed execution: the immediate
`connected` event, the per-chunk output/progress events, then the
terminal event of the `close` handler (Node fires `close` after both
stdio streams have ended, so it is last). -/
def relayRun (command : String) (events : List ProcEvent) (exitCode : Int) :
    List StreamMessage :=
  .connected "Connected to command stream"
    :: (processEvents (progressStagesFor command) events 0).1 ++ [closeEvent exitCode]

/-- Visible outcome of one `/api/execute` request: a synchronous JSON
rejection (status, error message) or a streamed event sequence. -/
inductive RouteResponse where
  | reject (status : Nat) (message : String)
  | stream (events : List StreamMessage)
deriving DecidableEq

/-- The `/api/execute` handler: input checks, then
`executeDataOpsCommand`; a throw before streaming begins is reported as
a synchronous rejection (headers are only sent after a successful
spawn), a success streams `relayRun`. -/
def handleExecute (cliExists : Bool) (command : String)
    (options : List (String × OptValue)) (procEvents : List ProcEvent)
    (exitCode : Int) : RouteResponse :=
  if command = "" then .reject 400 "Command is required"
  else
    let commandParts := splitOnChar ' ' command.data
    if commandParts.length < 2 ∨ 3 < commandParts.length then
      .reject 400 "Invalid command format"
    else
      match executeDataOpsCommand cliExists command options with
      | .ok _ => .stream (relayRun command procEvents exitCode)
      | .error e =>
        let errorMessage :=
          if containsSub e.data "Validation errors".data then e
          else if containsSub e.data "not found".data then "Data-ops CLI not found"
          else e
        .reject 500 errorMessage

/-! ## `rateLimit.ts` — sliding-window rate limiter -/

/-- The module-level `rateLimitMap`, keyed by client identifier. -/
abbrev RateLimitMap := List (String × List Int)

/-- `rateLimitMap.get(ip) || []`. -/
def rlGet (m : RateLimitMap) (ip : String) : List Int :=
  match m.find? (fun kv => kv.1 = ip) with
  | some kv => kv.2
  | none => []

/-- `rateLimitMap.set(ip, v)`: replace in place or append a new key. -/
def rlSet (m : RateLimitMap) (ip : String) (v : List Int) : RateLimitMap :=
  match m with
  | [] => [(ip, v)]
  | kv :: rest => if kv.1 = ip then (ip, v) :: rest else kv :: rlSet rest ip v

/-- Window length (`RATE_LIMIT_WINDOW`, ms). -/
def RATE_LIMIT_WINDOW : Int := 60000

/-- Admission cap per window (`RATE_LIMIT_MAX_REQUESTS`). -/
def RATE_LIMIT_MAX_REQUESTS : Nat := 30

/-- Source `checkRateLimit`, parametrized by the two module constants:
prune the client record to the window, reject (leaving the map alone)
when the pruned count reaches the cap, otherwise record and admit. -/
def checkRateLimitWith (window : Int) (maxRequests : Nat) (now : Int) (ip : String)
    (m : RateLimitMap) : Bool × RateLimitMap :=
  let userRequests := rlGet m ip
  let recentRequests := userRequests.filter (fun timestamp => now - timestamp < window)
  if maxRequests ≤ recentRequests.length then (false, m)
  else (true, rlSet m ip (recentRequests ++ [now]))

/-- Source `checkRateLimit` with the module constants applied. -/
def checkRateLimit (now : Int) (ip : String) (m : RateLimitMap) : Bool × RateLimitMap :=
  checkRateLimitWith RATE_LIMIT_WINDOW RATE_LIMIT_MAX_REQUESTS now ip m

/-- Five-call demonstration run of the limiter with a 1000 ms window and
a cap of 3: four calls within 999 ms, then one after the window. -/
def rlDemo : List Bool :=
  let r1 := checkRateLimitWith 1000 3 0 "client" []
  let r2 := checkRateLimitWith 1000 3 100 "client" r1.2
  let r3 := checkRateLimitWith 1000 3 200 "client" r2.2
  let r4 := checkRateLimitWith 1000 3 999 "client" r3.2
  let r5 := checkRateLimitWith 1000 3 1100 "client" r4.2
  [r1.1, r2.1, r3.1, r4.1, r5.1]

/-! ## Theorems -/

/-- C9. Each rate-limit check first prunes the client record to the
window and admits (recording the request) exactly when the pruned count
is strictly below the maximum; with a 1000 ms window and a cap of 3,
four calls within 999 ms admit, admit, admit, reject, and a further call
after the window has elapsed admits again. -/
theorem claim_C9 :
    (∀ (window : Int) (maxRequests : Nat) (now : Int) (ip : String) (m : RateLimitMap),
      ((checkRateLimitWith window maxRequests now ip m).1 = true ↔
        ((rlGet m ip).filter (fun t => now - t < window)).length < maxRequests)
      ∧ ((checkRateLimitWith window maxRequests now ip m).1 = true →
          (checkRateLimitWith window maxRequests now ip m).2 =
            rlSet m ip (((rlGet m ip).filter (fun t => now - t < window)) ++ [now])))
    ∧ rlDemo = [true, true, true, false, true] := by
  constructor
  · intro window maxRequests now ip m
    constructor
    · dsimp only [checkRateLimitWith]
      by_cases h : maxRequests ≤ ((rlGet m ip).filter (fun t => now - t < window)).length
      · simp [h]
      · simp [h]
        omega
    · intro hadm
      dsimp only [checkRateLimitWith] at hadm ⊢
      by_cases h : maxRequests ≤ ((rlGet m ip).filter (fun t => now - t < window)).length
      · simp [h] at hadm
      · simp [h]
  · decide

/-- Witness for C9 at a concrete admitted call. -/
theorem claim_C9_witness :
    ((checkRateLimitWith 1000 3 0 "client" []).1 = true)
    ∧ ((checkRateLimitWith 1000 3 0 "client" []).2 =
        rlSet [] "client" (((rlGet [] "client").filter (fun t => (0 : Int) - t < 1000)) ++ [0])) := by
  refine ⟨?_, ?_⟩
  · exact ((claim_C9.1 1000 3 0 "client" []).1).mpr (by decide)
  · exact (claim_C9.1 1000 3 0 "client" []).2 (by decide)

/-- C10. A rejected rate-limit check leaves the stored map completely
unchanged: the rejected timestamp is not recorded and not even the
pruned list is written back. -/
theorem claim_C10 :
    ∀ (window : Int) (maxRequests : Nat) (now : Int) (ip : String) (m : RateLimitMap),
      (checkRateLimitWith window maxRequests now ip m).1 = false →
      (checkRateLimitWith window maxRequests now ip m).2 = m := by
  intro window maxRequests now ip m h
  dsimp only [checkRateLimitWith] at h ⊢
  by_cases hc : maxRequests ≤ ((rlGet m ip).filter (fun t => now - t < window)).length
  · simp [hc]
  · simp [hc] at h

/-- Witness for C10 at a concrete rejected call. -/
theorem claim_C10_witness :
    ((checkRateLimitWith 1000 3 10 "c" [("c", [0, 1, 2])]).1 = false)
    ∧ ((checkRateLimitWith 1000 3 10 "c" [("c", [0, 1, 2])]).2 = [("c", [0, 1, 2])]) :=
  ⟨by decide, claim_C10 1000 3 10 "c" [("c", [0, 1, 2])] (by decide)⟩

/-- Keys of the `getCommands()` table, the declared domain/action pairs. -/
def getCommandsKeys : List String :=
  ["environment backup", "environment restore", "environment clean",
   "sync run", "sync snapshot", "sync diff"]

/-- Counterexample to C5: `environment destroy` matches no declared
domain/action pair, yet `validateCommandOptions` returns valid — the
fall-through rejects only unknown domains, not unknown actions. -/
theorem claim_C5_counterexample :
    ("environment destroy" ∉ getCommandsKeys)
    ∧ (validateCommandOptions "environment destroy" []).valid = true := by
  constructor
  · decide
  · decide

/-- C5 (amended). A command whose first space-separated token is not one
of the recognized domains `environment`, `sync`, `migrate-content`,
`migrations` fails validation with an `Unknown command` message; an
unrecognized action below a recognized domain is accepted unchecked (see
the counterexample). -/
theorem claim_C5 :
    ∀ (command : String) (options : List (String × OptValue)),
      ((splitOnChar ' ' command.data).map String.mk).headD "" ∉
          (["environment", "sync", "migrate-content", "migrations"] : List String) →
      (validateCommandOptions command options).valid = false
      ∧ (validateCommandOptions command options).message =
          some ("Unknown command: " ++ command) := by
  intro command options h
  have h1 : ¬(((splitOnChar ' ' command.data).map String.mk).headD "" = "environment") := by
    intro hh
    exact h (by rw [hh]; simp)
  have h2 : ¬(((splitOnChar ' ' command.data).map String.mk).headD "" = "sync") := by
    intro hh
    exact h (by rw [hh]; simp)
  have h3 : ¬(((splitOnChar ' ' command.data).map String.mk).headD "" = "migrate-content") := by
    intro hh
    exact h (by rw [hh]; simp)
  have h4 : ¬(((splitOnChar ' ' command.data).map String.mk).headD "" = "migrations") := by
    intro hh
    exact h (by rw [hh]; simp)
  simp at h1 h2 h3 h4
  constructor
  · simp [validateCommandOptions, h1, h2, h3, h4]
  · simp [validateCommandOptions, h1, h2, h3, h4]

/-- Witness for C5 at a concrete unknown domain. -/
theorem claim_C5_witness :
    (validateCommandOptions "frobnicate run" []).valid = false
    ∧ (validateCommandOptions "frobnicate run" []).message =
        some ("Unknown command: " ++ "frobnicate run") :=
  claim_C5 "frobnicate run" [] (by decide)

/-- Counterexample to C7: a value containing the parent-directory token
`..` that normalizes away (`a/../b`) records no violation, and a value
containing a NUL byte records no violation either — the sanitizer
checks the `path.normalize`d form and never looks for NUL. -/
theorem claim_C7_counterexample :
    keyErrors "fileName" (.vstr "a/../b") = []
    ∧ containsSub "a/../b".data "..".data = true
    ∧ keyErrors "fileName" (.vstr (String.mk ['a', Char.ofNat 0, 'b'])) = [] := by
  refine ⟨by decide, by decide, by decide⟩

/-- C7 (amended). For a file/path-shaped key, a present (truthy) string
value passes the sanitizer check exactly when its `path.normalize`d form
contains no `..`, is nonempty, and is shorter than 500 characters; a
failing value records a violation naming the key. NUL bytes are not
checked, and the emptiness/length conditions apply to the normalized
string rather than the trimmed original. -/
theorem claim_C7 :
    ∀ (key : String) (s : String), isFileKey key = true → s ≠ "" →
      (validateFilePath (.vstr s) 500 = true ↔
        (containsSub (posixNormalize s.data) ['.', '.'] = false
          ∧ posixNormalize s.data ≠ []
          ∧ (posixNormalize s.data).length < 500))
      ∧ (validateFilePath (.vstr s) 500 = false →
          (key ++ " contains invalid characters or path traversal attempt")
            ∈ keyErrors key (.vstr s)) := by
  intro key s hk hs
  constructor
  · simp only [validateFilePath, if_neg hs]
    constructor
    · intro hv
      rw [Bool.and_eq_true, Bool.and_eq_true] at hv
      obtain ⟨⟨ha, hb⟩, hc⟩ := hv
      refine ⟨by simpa using ha, ?_, by simpa using hc⟩
      have hb' : 0 < (posixNormalize s.data).length := by simpa using hb
      exact List.length_pos.mp hb'
    · intro ⟨hc, hn, hl⟩
      have hlen : 0 < (posixNormalize s.data).length := List.length_pos.2 hn
      simp [hc, hlen, hl]
  · intro hv
    have ht : truthy (.vstr s) = true := by simp [truthy, hs]
    have hcond : (isFileKey key && truthy (.vstr s) && !validateFilePath (.vstr s) 500) = true := by
      simp [hk, ht, hv]
    unfold keyErrors
    rw [if_pos hcond]
    simp

/-- Witness for C7: a traversal path that survives normalization fails
and records the violation; a plain file name passes both ways of the
equivalence. -/
theorem claim_C7_witness :
    (("fileName" ++ " contains invalid characters or path traversal attempt")
      ∈ keyErrors "fileName" (.vstr "../x"))
    ∧ (containsSub (posixNormalize "ok.zip".data) ['.', '.'] = false
        ∧ posixNormalize "ok.zip".data ≠ []
        ∧ (posixNormalize "ok.zip".data).length < 500)
    ∧ validateFilePath (.vstr "ok.zip") 500 = true := by
  refine ⟨?_, ?_, ?_⟩
  · exact (claim_C7 "fileName" "../x" (by decide) (by decide)).2 (by decide)
  · exact ((claim_C7 "fileName" "ok.zip" (by decide) (by decide)).1).mp (by decide)
  · exact ((claim_C7 "fileName" "ok.zip" (by decide) (by decide)).1).mpr (by decide)

/-- C4. The argument builder is a pure function that prepends the
space-split command tokens and then contributes, per option in mapping
order, exactly the tokens the specification describes: nothing for
null/undefined/empty-string/`false`/bare-object values and `_`-marked
keys, a bare kebab-case flag for `true`, flag/value pairs repeated per
array element (2N tokens for N elements), and a flag plus string form
for other scalars. -/
theorem claim_C4 :
    (∀ (command : String) (options : List (String × OptValue)),
      buildDataOpsArgs command options =
        (splitOnChar ' ' command.data).map String.mk ++ options.flatMap tokensForOption)
    ∧ (∀ (key : String) (xs : List String), startsWithChar '_' key = false →
        (tokensForOption (key, .varr xs)).length = 2 * xs.length)
    ∧ (∀ (key : String), tokensForOption (key, .vbool false) = []) := by
  have hstep : ∀ (args : List String) (kv : String × OptValue),
      buildStep args kv = args ++ tokensForOption kv := by
    intro args kv
    rcases kv with ⟨key, v⟩
    by_cases hk : startsWithChar '_' key = true
    · cases v <;> simp [buildStep, tokensForOption, hk] <;> split_ifs <;> simp
    · have hk' : startsWithChar '_' key = false := by simpa using hk
      cases v <;> simp [buildStep, tokensForOption, hk', jsString] <;> split_ifs <;> simp_all
  refine ⟨?_, ?_, ?_⟩
  · intro command options
    have hfold : ∀ (opts : List (String × OptValue)) (init : List String),
        opts.foldl buildStep init = init ++ opts.flatMap tokensForOption := by
      intro opts
      induction opts with
      | nil => intro init; simp
      | cons kv rest ih =>
        intro init
        simp only [List.foldl_cons, List.flatMap_cons, hstep, ih, List.append_assoc]
    exact hfold options _
  · intro key xs hk
    induction xs with
    | nil => simp [tokensForOption, hk]
    | cons x rest ih =>
      simp only [tokensForOption, hk, Bool.false_eq_true, if_false, List.flatMap_cons] at ih ⊢
      simp at ih ⊢
      omega
  · intro key
    simp [tokensForOption]

/-- Witness for C4: a two-element entity array yields four tokens. -/
theorem claim_C4_witness :
    (tokensForOption ("entities", .varr ["a", "b"])).length =
      2 * (["a", "b"] : List String).length :=
  claim_C4.2.1 "entities" ["a", "b"] (by decide)

/-- C6. For `sync run` and `sync diff` with their unconditional target
requirements satisfied (and, for `sync diff`, the advanced flag off so
its separate conditional rule is idle), validation accepts exactly the
source shapes remote-id+key, folder-only, and both together, and rejects
both the shape providing neither and any shape providing the remote id
without its key. -/
theorem claim_C6 :
    (∀ (options : List (String × OptValue)),
      truthy (getOpt options "targetEnvironmentId") = true →
      truthy (getOpt options "targetApiKey") = true →
      (∃ xs, getOpt options "entities" = .varr xs ∧ xs ≠ []) →
      ((validateCommandOptions "sync run" options).valid = true ↔
        ((truthy (getOpt options "sourceEnvironmentId") = true
            ∧ truthy (getOpt options "sourceApiKey") = true)
         ∨ (truthy (getOpt options "sourceEnvironmentId") = false
            ∧ truthy (getOpt options "folderName") = true))))
    ∧ (∀ (options : List (String × OptValue)),
      truthy (getOpt options "targetEnvironmentId") = true →
      truthy (getOpt options "targetApiKey") = true →
      truthy (getOpt options "advanced") = false →
      ((validateCommandOptions "sync diff" options).valid = true ↔
        ((truthy (getOpt options "sourceEnvironmentId") = true
            ∧ truthy (getOpt options "sourceApiKey") = true)
         ∨ (truthy (getOpt options "sourceEnvironmentId") = false
            ∧ truthy (getOpt options "folderName") = true)))) := by
  constructor
  · intro options h1 h2 hent
    obtain ⟨xs, hxs, hne⟩ := hent
    have hv : validateCommandOptions "sync run" options =
        (if !truthy (getOpt options "targetEnvironmentId") || !truthy (getOpt options "targetApiKey")
            || !truthy (getOpt options "entities") || !isArrayV (getOpt options "entities")
            || arrayLenV (getOpt options "entities") = 0 then
          ⟨false, some "targetEnvironmentId, targetApiKey, and entities are required for sync run"⟩
        else if !truthy (getOpt options "sourceEnvironmentId") && !truthy (getOpt options "folderName") then
          ⟨false, some "Either sourceEnvironmentId+sourceApiKey or folderName is required for sync run"⟩
        else if truthy (getOpt options "sourceEnvironmentId") && !truthy (getOpt options "sourceApiKey") then
          ⟨false, some "sourceApiKey is required when using sourceEnvironmentId"⟩
        else ⟨true, none⟩) := rfl
    rw [hv]
    have he1 : truthy (getOpt options "entities") = true := by rw [hxs]; rfl
    have he2 : isArrayV (getOpt options "entities") = true := by rw [hxs]; rfl
    have he3 : ¬(arrayLenV (getOpt options "entities") = 0) := by
      rw [hxs]
      simpa [arrayLenV] using hne
    cases hsrc : truthy (getOpt options "sourceEnvironmentId") <;>
      cases hkey : truthy (getOpt options "sourceApiKey") <;>
        cases hfold : truthy (getOpt options "folderName") <;>
          simp [h1, h2, he1, he2, he3, hsrc, hkey, hfold]
  · intro options h1 h2 hadv
    have hv : validateCommandOptions "sync diff" options =
        (if !truthy (getOpt options "targetEnvironmentId") || !truthy (getOpt options "targetApiKey") then
          ⟨false, some "targetEnvironmentId and targetApiKey are required for sync diff"⟩
        else if !truthy (getOpt options "sourceEnvironmentId") && !truthy (getOpt options "folderName") then
          ⟨false, some "Either sourceEnvironmentId+sourceApiKey or folderName is required for sync diff"⟩
        else if truthy (getOpt options "sourceEnvironmentId") && !truthy (getOpt options "sourceApiKey") then
          ⟨false, some "sourceApiKey is required when using sourceEnvironmentId"⟩
        else if truthy (getOpt options "advanced")
            && (!truthy (getOpt options "outPath")
                || (match getOpt options "outPath" with
                    | .vstr s => trimChars s.data = []
                    | _ => false)) then
          ⟨false, some "outPath is required when advanced option is enabled"⟩
        else ⟨true, none⟩) := rfl
    rw [hv]
    cases hsrc : truthy (getOpt options "sourceEnvironmentId") <;>
      cases hkey : truthy (getOpt options "sourceApiKey") <;>
        cases hfold : truthy (getOpt options "folderName") <;>
          simp [h1, h2, hadv, hsrc, hkey, hfold]

/-- Witness for C6: folder-only sources validate for `sync run`, and a
remote id without its key is rejected for `sync diff`. -/
theorem claim_C6_witness :
    (validateCommandOptions "sync run"
      [("targetEnvironmentId", OptValue.vstr "t"), ("targetApiKey", OptValue.vstr "k"),
       ("entities", OptValue.varr ["contentTypes"]), ("folderName", OptValue.vstr "snap")]).valid = true
    ∧ (validateCommandOptions "sync diff"
      [("targetEnvironmentId", OptValue.vstr "t"), ("targetApiKey", OptValue.vstr "k"),
       ("sourceEnvironmentId", OptValue.vstr "s")]).valid = false := by
  constructor
  · exact (claim_C6.1 _ (by decide) (by decide) ⟨["contentTypes"], by decide, by decide⟩).mpr
      (Or.inr ⟨by decide, by decide⟩)
  · have h := (claim_C6.2
      [("targetEnvironmentId", OptValue.vstr "t"), ("targetApiKey", OptValue.vstr "k"),
       ("sourceEnvironmentId", OptValue.vstr "s")] (by decide) (by decide) (by decide))
    cases hval : (validateCommandOptions "sync diff"
      [("targetEnvironmentId", OptValue.vstr "t"), ("targetApiKey", OptValue.vstr "k"),
       ("sourceEnvironmentId", OptValue.vstr "s")]).valid
    · rfl
    · exfalso
      rcases h.mp hval with ⟨_, hk⟩ | ⟨hs, _⟩
      · exact absurd hk (by decide)
      · exact absurd hs (by decide)

/-- C2. A request whose options fail sanitization or command validation
is answered with a synchronous rejection (no stream is ever started, so
no streaming event is emitted) and the child process is never spawned;
for the concrete `environment backup` request missing `apiKey`, the
rejection message names `apiKey`. -/
theorem claim_C2 :
    (∀ (command : String) (options : List (String × OptValue))
        (procEvents : List ProcEvent) (exitCode : Int),
      (∀ sanitized, validateAndSanitizeOptions command options = .ok sanitized →
        (validateCommandOptions command sanitized).valid = false) →
      (∃ status msg, handleExecute true command options procEvents exitCode = .reject status msg)
      ∧ spawnCount (executeDataOpsCommand true command options) = 0)
    ∧ handleExecute true "environment backup"
        [("environmentId", OptValue.vstr "123e4567-e89b-12d3-a456-426614174000")] [] 0 =
        .reject 500 "environmentId and apiKey are required for environment backup"
    ∧ containsSub "environmentId and apiKey are required for environment backup".data
        "apiKey".data = true := by
  refine ⟨?_, by decide, by decide⟩
  intro command options procEvents exitCode h
  have hex : ∃ e, executeDataOpsCommand true command options = .error e := by
    rcases hs : validateAndSanitizeOptions command options with e | s
    · refine ⟨if containsSub e.data "not found".data then cliNotFoundMessage else e, ?_⟩
      unfold executeDataOpsCommand
      rw [hs]
      by_cases hnf : containsSub e.data "not found".data = true <;> simp [hnf]
    · have hval := h s hs
      refine ⟨if containsSub ((validateCommandOptions command s).message.getD
            "Invalid command options").data "not found".data then cliNotFoundMessage
          else (validateCommandOptions command s).message.getD "Invalid command options", ?_⟩
      unfold executeDataOpsCommand
      rw [hs]
      by_cases hnf : containsSub ((validateCommandOptions command s).message.getD
          "Invalid command options").data "not found".data = true <;> simp [hval, hnf]
  obtain ⟨e, he⟩ := hex
  refine ⟨?_, ?_⟩
  · by_cases hc : command = ""
    · exact ⟨400, "Command is required", by simp [handleExecute, hc]⟩
    · by_cases hlen : ((splitOnChar ' ' command.data).length < 2
          ∨ 3 < (splitOnChar ' ' command.data).length)
      · exact ⟨400, "Invalid command format", by simp [handleExecute, hc, hlen]⟩
      · refine ⟨500, if containsSub e.data "Validation errors".data then e
            else if containsSub e.data "not found".data then "Data-ops CLI not found"
            else e, ?_⟩
        simp [handleExecute, hc, hlen, he]
  · rw [he]
    rfl

/-- Witness for C2: the `environment backup` request with a valid
environment id but no `apiKey` is rejected synchronously with zero
spawns. -/
theorem claim_C2_witness :
    (∃ status msg, handleExecute true "environment backup"
        [("environmentId", OptValue.vstr "123e4567-e89b-12d3-a456-426614174000")] [] 0 =
        .reject status msg)
    ∧ spawnCount (executeDataOpsCommand true "environment backup"
        [("environmentId", OptValue.vstr "123e4567-e89b-12d3-a456-426614174000")]) = 0 :=
  claim_C2.1 "environment backup"
    [("environmentId", OptValue.vstr "123e4567-e89b-12d3-a456-426614174000")] [] 0 (by
      intro s hs
      have hcomp : validateAndSanitizeOptions "environment backup"
          [("environmentId", OptValue.vstr "123e4567-e89b-12d3-a456-426614174000")] =
          .ok [("environmentId", OptValue.vstr "123e4567-e89b-12d3-a456-426614174000")] := by
        rfl
      rw [hcomp] at hs
      cases hs
      decide)

/-- Completion-event discriminator. -/
def isCompleteMsg : StreamMessage → Bool
  | .complete _ _ => true
  | _ => false

/-- Error-event discriminator. -/
def isErrorMsg : StreamMessage → Bool
  | .error _ => true
  | _ => false

/-- Every event a single stdout line produces is either a progress event
built from a row of the stage table or the info-level echo of the line. -/
theorem mem_lineEvents_shape (stages : List StageEntry) (now last : Int) (line : String)
    (e : StreamMessage) (he : e ∈ (lineEvents stages now last line).1) :
    (∃ st ∈ stages, e = .progress st.percent line st.stage) ∨ e = .output .info line := by
  unfold lineEvents at he
  cases hf : stages.find? (fun st => st.test line && decide (500 < now - last)) with
  | none =>
    rw [hf] at he
    simp at he
    exact Or.inr he
  | some st =>
    rw [hf] at he
    simp at he
    rcases he with he | he
    · exact Or.inl ⟨st, List.mem_of_find?_eq_some hf, he⟩
    · exact Or.inr he

/-- Shape of the events of a whole stdout chunk. -/
theorem mem_linesEvents_shape (stages : List StageEntry) (now : Int) (lines : List String)
    (last : Int) (e : StreamMessage) (he : e ∈ (linesEvents stages now lines last).1) :
    (∃ st ∈ stages, ∃ l, e = .progress st.percent l st.stage) ∨ (∃ lvl l, e = .output lvl l) := by
  induction lines generalizing last with
  | nil => simp [linesEvents] at he
  | cons line rest ih =>
    simp only [linesEvents] at he
    rcases List.mem_append.1 he with h | h
    · rcases mem_lineEvents_shape stages now last line e h with ⟨st, hst, hel⟩ | hel
      · exact Or.inl ⟨st, hst, line, hel⟩
      · exact Or.inr ⟨.info, line, hel⟩
    · exact ih _ h

/-- Shape of everything the stdout/stderr handlers write: only progress
events drawn from the stage table and output events — never a complete
or error event. -/
theorem mem_processEvents_shape (stages : List StageEntry) (evs : List ProcEvent) (last : Int)
    (e : StreamMessage) (he : e ∈ (processEvents stages evs last).1) :
    (∃ st ∈ stages, ∃ l, e = .progress st.percent l st.stage) ∨ (∃ lvl l, e = .output lvl l) := by
  induction evs generalizing last with
  | nil => simp [processEvents] at he
  | cons ev rest ih =>
    cases ev with
    | stdoutChunk now data =>
      simp only [processEvents] at he
      rcases List.mem_append.1 he with h | h
      · exact mem_linesEvents_shape stages now (nonEmptyLines data) last e h
      · exact ih _ h
    | stderrChunk data =>
      simp only [processEvents] at he
      rcases List.mem_append.1 he with h | h
      · simp [stderrEvents] at h
        obtain ⟨l, _, hel⟩ := h
        exact Or.inr ⟨.error, l, hel.symm⟩
      · exact ih _ h

/-- C1. For every streamed execution whose child closes with exit code
`c`, the relay emits exactly one complete event, it is the last event on
the stream, carries `success = true` exactly when `c = 0` and otherwise
`success = false` with a message naming `c`; no error event is ever
emitted for a nonzero exit code (or any exit). -/
theorem claim_C1 :
    ∀ (command : String) (events : List ProcEvent) (exitCode : Int),
      (relayRun command events exitCode).getLast? = some (closeEvent exitCode)
      ∧ ((relayRun command events exitCode).filter (fun e => isCompleteMsg e)).length = 1
      ∧ ((relayRun command events exitCode).filter (fun e => isErrorMsg e)).length = 0
      ∧ closeEvent exitCode = .complete (decide (exitCode = 0))
          (if exitCode = 0 then "Command completed successfully"
           else "Command exited with code " ++ toString exitCode) := by
  intro command events exitCode
  have hbody : ∀ e ∈ (processEvents (progressStagesFor command) events 0).1,
      isCompleteMsg e = false ∧ isErrorMsg e = false := by
    intro e he
    rcases mem_processEvents_shape _ _ _ _ he with ⟨st, _, l, rfl⟩ | ⟨lvl, l, rfl⟩
    · exact ⟨rfl, rfl⟩
    · exact ⟨rfl, rfl⟩
  have hc1 : ((processEvents (progressStagesFor command) events 0).1.filter
      (fun e => isCompleteMsg e)) = [] :=
    List.filter_eq_nil_iff.2 (fun e he => by simp [(hbody e he).1])
  have he1 : ((processEvents (progressStagesFor command) events 0).1.filter
      (fun e => isErrorMsg e)) = [] :=
    List.filter_eq_nil_iff.2 (fun e he => by simp [(hbody e he).2])
  have hcl : isCompleteMsg (closeEvent exitCode) = true := by
    unfold closeEvent
    split <;> rfl
  have hce : isErrorMsg (closeEvent exitCode) = false := by
    unfold closeEvent
    split <;> rfl
  refine ⟨?_, ?_, ?_, ?_⟩
  · show (StreamMessage.connected "Connected to command stream"
        :: ((processEvents (progressStagesFor command) events 0).1 ++ [closeEvent exitCode])).getLast?
      = some (closeEvent exitCode)
    rw [← List.cons_append, List.getLast?_concat]
  · show ((StreamMessage.connected "Connected to command stream"
        :: ((processEvents (progressStagesFor command) events 0).1 ++ [closeEvent exitCode])).filter
          (fun e => isCompleteMsg e)).length = 1
    have hconn : isCompleteMsg (StreamMessage.connected "Connected to command stream") = false := rfl
    simp [List.filter_cons, List.filter_append, hc1, hcl, hconn]
  · show ((StreamMessage.connected "Connected to command stream"
        :: ((processEvents (progressStagesFor command) events 0).1 ++ [closeEvent exitCode])).filter
          (fun e => isErrorMsg e)).length = 0
    have hconn : isErrorMsg (StreamMessage.connected "Connected to command stream") = false := rfl
    simp [List.filter_cons, List.filter_append, he1, hce, hconn]
  · unfold closeEvent
    by_cases h : exitCode = 0 <;> simp [h]

/-- Counterexample to C8: the Progress Classifier derives percent 150
from the line `3 of 2`, outside `[0,100]`. -/
theorem claim_C8_counterexample :
    parseProgressFromOutput "3 of 2" = some ⟨some 150, "3 of 2", ""⟩
    ∧ ¬((150 : ℚ) ≤ 100) := by
  constructor
  · have h1 : scanFor p1At "3 of 2".data = none := by decide
    have h2 : scanFor p2At "3 of 2".data = some (3, 2) := by decide
    simp [parseProgressFromOutput, numericLoop, progressPatterns, pat1, pat2, h1, h2]
    norm_num
  · norm_num

/-- Every row of every stage table carries a percent within `[0,100]`. -/
theorem stagesFor_percent_bounds (command : String) :
    ∀ st ∈ progressStagesFor command, 0 ≤ st.percent ∧ st.percent ≤ 100 := by
  intro st hst
  unfold progressStagesFor at hst
  split_ifs at hst
  · simp [backupStages] at hst
    rcases hst with h | h | h | h | h <;> subst h <;> norm_num
  · simp [restoreStages] at hst
    rcases hst with h | h | h | h <;> subst h <;> norm_num
  · simp [syncStages] at hst
    rcases hst with h | h | h | h <;> subst h <;> norm_num
  · simp at hst

/-- A numeric classifier result is never negative: ratio percents are
quotients of naturals scaled by 100, direct percents are naturals. -/
theorem numericLoop_percent_nonneg (ps : List (String → Option Capture)) :
    ∀ (s : String) (r : ProgressSignal) (q : ℚ),
      numericLoop s ps = some r → r.percent = some q → 0 ≤ q := by
  induction ps with
  | nil =>
    intro s r q h
    simp [numericLoop] at h
  | cons p rest ih =>
    intro s r q h hq
    unfold numericLoop at h
    cases hp : p s with
    | none =>
      rw [hp] at h
      exact ih s r q h hq
    | some cap =>
      rw [hp] at h
      rcases cap with ⟨c1, c2⟩
      rcases c1 with _ | cur
      · exact ih s r q h hq
      · rcases c2 with _ | tot
        · simp at h
          rw [← h] at hq
          simp at hq
          rw [← hq]
          positivity
        · dsimp only at h
          by_cases ht : 0 < tot
          · rw [if_pos ht] at h
            simp at h
            rw [← h] at hq
            simp at hq
            rw [← hq]
            positivity
          · rw [if_neg ht] at h
            exact ih s r q h hq

/-- A stage-keyword classifier result carries no percent. -/
theorem stageLoop_percent_none (ps : List (String × String)) :
    ∀ (s : String) (r : ProgressSignal), stageLoop s ps = some r → r.percent = none := by
  induction ps with
  | nil =>
    intro s r h
    simp [stageLoop] at h
  | cons kw rest ih =>
    intro s r h
    unfold stageLoop at h
    by_cases hk : ciContains s.data kw.1.data = true
    · rw [if_pos hk] at h
      simp at h
      rw [← h]
    · rw [if_neg hk] at h
      exact ih s r h

/-- C8 (amended). Every progress event the Stream Relay emits carries a
percent in `[0,100]` (the stage-table percents all lie there); the
Progress Classifier's derived percent is never negative but can exceed
100 (see the counterexample), so the classifier half of the original
claim holds only in the lower bound. -/
theorem claim_C8 :
    (∀ (command : String) (events : List ProcEvent) (exitCode : Int) (p : ℚ) (m st : String),
      .progress p m st ∈ relayRun command events exitCode → 0 ≤ p ∧ p ≤ 100)
    ∧ (∀ (s : String) (sig : ProgressSignal) (q : ℚ),
      parseProgressFromOutput s = some sig → sig.percent = some q → 0 ≤ q) := by
  constructor
  · intro command events exitCode p m st hmem
    unfold relayRun at hmem
    rcases List.mem_cons.1 hmem with h | h
    · exact absurd h (by simp)
    · rcases List.mem_append.1 h with h | h
      · rcases mem_processEvents_shape _ _ _ _ h with ⟨entry, hentry, l, hl⟩ | ⟨lvl, l, hl⟩
        · have hb := stagesFor_percent_bounds command entry hentry
          have hp : p = entry.percent := by
            injection hl
          rw [hp]
          exact hb
        · exact absurd hl (by simp)
      · simp at h
        exfalso
        revert h
        unfold closeEvent
        split <;> simp
  · intro s sig q hsig hq
    unfold parseProgressFromOutput at hsig
    cases hn : numericLoop s progressPatterns with
    | some r =>
      rw [hn] at hsig
      simp at hsig
      rw [← hsig] at hq
      exact numericLoop_percent_nonneg progressPatterns s r q hn hq
    | none =>
      rw [hn] at hsig
      simp at hsig
      have := stageLoop_percent_none stagePatterns s sig hsig
      rw [this] at hq
      cases hq

/-- Witness for C8 at a concrete relayed backup progress event and a
concrete classifier line. -/
theorem claim_C8_witness :
    ((0 : ℚ) ≤ 10 ∧ (10 : ℚ) ≤ 100) ∧ (0 : ℚ) ≤ 45 := by
  constructor
  · exact claim_C8.1 "environment backup" [.stdoutChunk 1000 "backing up"] 0 10
      "backing up" "Starting backup..." (by decide)
  · exact claim_C8.2 "45% / 100" ⟨some 45, "45% / 100", ""⟩ 45
      (by
        have h1 : scanFor p1At "45% / 100".data = some (45, 100) := by decide
        simp [parseProgressFromOutput, numericLoop, progressPatterns, pat1, h1]
        try norm_num)
      rfl

/-- One unfolding step of the numeric loop. -/
theorem numericLoop_cons (s : String) (p : String → Option Capture)
    (ps : List (String → Option Capture)) :
    numericLoop s (p :: ps) =
      match p s with
      | none => numericLoop s ps
      | some (some cur, some tot) =>
        if 0 < tot then some ⟨some (((cur : ℚ) / tot) * 100), s, ""⟩ else numericLoop s ps
      | some (some cur, none) => some ⟨some ((cur : ℚ)), s, ""⟩
      | some (none, _) => numericLoop s ps := rfl

/-- The sixth pattern has no capture group, so the numeric loop never
returns from it. -/
theorem numericLoop_pat6 (s : String) : numericLoop s [pat6] = none := by
  rw [numericLoop_cons]
  by_cases h : stageIndicatorTest s = true
  · have hp : pat6 s = some (none, none) := by simp [pat6, h]
    rw [hp]
    rfl
  · have hp : pat6 s = none := by simp [pat6, h]
    rw [hp]
    rfl

/-- Loop tail from the fifth pattern equals the spec cascade tail. -/
theorem numericLoop_pat5 (s : String) :
    numericLoop s [pat5, pat6] =
      (specNum5 s).map (fun q => (⟨some q, s, ""⟩ : ProgressSignal)) := by
  rw [numericLoop_cons]
  cases h : scanFor p5At s.data with
  | none =>
    have hp : pat5 s = none := by simp [pat5, h]
    rw [hp]
    simp [specNum5, h, numericLoop_pat6]
  | some n =>
    have hp : pat5 s = some (some n, none) := by simp [pat5, h]
    rw [hp]
    simp [specNum5, h]

/-- Loop tail from the fourth pattern equals the spec cascade tail. -/
theorem numericLoop_pat4 (s : String) :
    numericLoop s [pat4, pat5, pat6] =
      (specNum4 s).map (fun q => (⟨some q, s, ""⟩ : ProgressSignal)) := by
  rw [numericLoop_cons]
  cases h : scanFor p4At s.data with
  | none =>
    have hp : pat4 s = none := by simp [pat4, h]
    rw [hp]
    simp [specNum4, ratioOrSkip, h, numericLoop_pat5]
  | some nm =>
    rcases nm with ⟨n, m⟩
    have hp : pat4 s = some (some n, some m) := by simp [pat4, h]
    rw [hp]
    by_cases hm : 0 < m
    · simp [specNum4, ratioOrSkip, h, hm, ProgressSignal.mk.injEq]
      ring
    · simp [specNum4, ratioOrSkip, h, hm, numericLoop_pat5]

/-- Loop tail from the third pattern equals the spec cascade tail. -/
theorem numericLoop_pat3 (s : String) :
    numericLoop s [pat3, pat4, pat5, pat6] =
      (specNum3 s).map (fun q => (⟨some q, s, ""⟩ : ProgressSignal)) := by
  rw [numericLoop_cons]
  cases h : scanFor p3At s.data with
  | none =>
    have hp : pat3 s = none := by simp [pat3, h]
    rw [hp]
    simp [specNum3, h, numericLoop_pat4]
  | some n =>
    have hp : pat3 s = some (some n, none) := by simp [pat3, h]
    rw [hp]
    simp [specNum3, h]

/-- Loop tail from the second pattern equals the spec cascade tail. -/
theorem numericLoop_pat2 (s : String) :
    numericLoop s [pat2, pat3, pat4, pat5, pat6] =
      (specNum2 s).map (fun q => (⟨some q, s, ""⟩ : ProgressSignal)) := by
  rw [numericLoop_cons]
  cases h : scanFor p2At s.data with
  | none =>
    have hp : pat2 s = none := by simp [pat2, h]
    rw [hp]
    simp [specNum2, ratioOrSkip, h, numericLoop_pat3]
  | some nm =>
    rcases nm with ⟨n, m⟩
    have hp : pat2 s = some (some n, some m) := by simp [pat2, h]
    rw [hp]
    by_cases hm : 0 < m
    · simp [specNum2, ratioOrSkip, h, hm, ProgressSignal.mk.injEq]
      ring
    · simp [specNum2, ratioOrSkip, h, hm, numericLoop_pat3]

/-- The whole numeric loop equals the spec numeric cascade. -/
theorem numericLoop_eq_spec (s : String) :
    numericLoop s progressPatterns =
      (classifySpecNumeric s).map (fun q => (⟨some q, s, ""⟩ : ProgressSignal)) := by
  rw [show progressPatterns = pat1 :: [pat2, pat3, pat4, pat5, pat6] from rfl, numericLoop_cons]
  cases h : scanFor p1At s.data with
  | none =>
    have hp : pat1 s = none := by simp [pat1, h]
    rw [hp]
    simp [classifySpecNumeric, ratioOrSkip, h, numericLoop_pat2]
  | some nm =>
    rcases nm with ⟨n, m⟩
    have hp : pat1 s = some (some n, some m) := by simp [pat1, h]
    rw [hp]
    by_cases hm : 0 < m
    · simp [classifySpecNumeric, ratioOrSkip, h, hm, ProgressSignal.mk.injEq]
      ring
    · simp [classifySpecNumeric, ratioOrSkip, h, hm, numericLoop_pat2]

/-- The stage-keyword loop is the first-match search over the table. -/
theorem stageLoop_eq_find (s : String) (ps : List (String × String)) :
    stageLoop s ps = (ps.find? (fun kw => ciContains s.data kw.1.data)).map
      (fun kw => (⟨none, s, kw.2⟩ : ProgressSignal)) := by
  induction ps with
  | nil => rfl
  | cons kw rest ih =>
    by_cases h : ciContains s.data kw.1.data = true
    · simp [stageLoop, List.find?_cons, h]
    · simp [stageLoop, List.find?_cons, h, ih]

/-- C3. The classifier equals the specified cascade — ordered numeric
patterns first (two captures with a positive total give `100*N/M`, a
single capture gives the integer directly, first success wins), then the
ordered stage keywords, then nothing — and the four specified example
lines classify as stated. -/
theorem claim_C3 :
    (∀ (s : String), parseProgressFromOutput s = classifySpec s)
    ∧ parseProgressFromOutput "45% / 100" = some ⟨some 45, "45% / 100", ""⟩
    ∧ parseProgressFromOutput "Progress: 72%" = some ⟨some 72, "Progress: 72%", ""⟩
    ∧ parseProgressFromOutput "Backing up content..." =
        some ⟨none, "Backing up content...", "Backing up data..."⟩
    ∧ parseProgressFromOutput "hello world" = none := by
  have hmain : ∀ (s : String), parseProgressFromOutput s = classifySpec s := by
    intro s
    unfold parseProgressFromOutput classifySpec
    rw [numericLoop_eq_spec, stageLoop_eq_find]
    cases hq : classifySpecNumeric s with
    | none =>
      cases hf : stagePatterns.find? (fun kw => ciContains s.data kw.1.data) <;> simp
    | some q => simp
  refine ⟨hmain, ?_, ?_, ?_, ?_⟩
  · have h1 : scanFor p1At "45% / 100".data = some (45, 100) := by decide
    simp [parseProgressFromOutput, numericLoop, progressPatterns, pat1, h1]
    try norm_num
  · have h1 : scanFor p1At "Progress: 72%".data = none := by decide
    have h2 : scanFor p2At "Progress: 72%".data = none := by decide
    have h3 : scanFor p3At "Progress: 72%".data = some 72 := by decide
    simp [parseProgressFromOutput, numericLoop, progressPatterns, pat1, pat2, pat3, h1, h2, h3]
  · decide
  · decide

end DataOps
